import Mathlib

/-!
# Verification of the `vite-plugin-fakery` request-handling pipeline

Shallow embedding of the mock-API request handler (`src/handlers.ts`) and the
recursive value resolver (`src/fakerResolver.ts`).  JavaScript runtime values
are modelled by `JSVal`; `undefined` is an explicit constructor, machine
numbers that appear in the pipeline are integers and are modelled by `Int`
(`NaN` from `parseInt` is modelled by `Option Int = none`).  Records
(generated rows) are association lists with JS-object semantics: lookup finds
the first entry, object-spread overwrites in place.
-/

/-- A JavaScript runtime value, as used by the handler pipeline.  Functions
(`fn`) model faker generator members and configuration callbacks: they take
the process-wide pseudo-random generator state (a `Nat`) and return the
produced value together with the advanced state. -/
inductive JSVal where
  | str (s : String)
  | num (n : Int)
  | bool (b : Bool)
  | null
  | undefined
  | arr (l : List JSVal)
  | obj (l : List (String × JSVal))
  | fn (f : Nat → JSVal × Nat)

/-- A generated record: a JS object represented as an association list. -/
abbrev RecordObj := List (String × JSVal)

/-- First-match association-list lookup, i.e. JS property access on an
object modelled as `obj` (absent key gives `undefined`). -/
def objGetOpt (o : RecordObj) (k : String) : Option JSVal :=
  (o.find? (fun p => p.1 == k)).map (fun p => p.2)

/-- JS property access `v[k]`: fields of objects; everything else (numbers,
strings, functions, `null`, `undefined`, arrays) yields `undefined` here —
built-in properties of primitives are outside the modelled generator
capability surface. -/
def jsGetField (v : JSVal) (k : String) : JSVal :=
  match v with
  | .obj fields => (objGetOpt fields k).getD .undefined
  | _ => .undefined

/-- Iterated optional-chained access `v?.[p1]?.[p2]…`, as in the path walk of
`resolveFakerValue`. -/
def jsGetPath (v : JSVal) : List String → JSVal
  | [] => v
  | p :: ps => jsGetPath (jsGetField v p) ps

mutual

/-- JS `String(v)` conversion (restricted to the value forms the pipeline
produces; nested arrays flatten with commas as in JS `Array.prototype.toString`,
objects print `[object Object]`, functions are abstracted to `"function"`). -/
def jsToString : JSVal → String
  | .str s => s
  | .num n => toString n
  | .bool b => if b then "true" else "false"
  | .null => "null"
  | .undefined => "undefined"
  | .arr l => String.intercalate "," (jsToStringList l)
  | .obj _ => "[object Object]"
  | .fn _ => "function"

/-- Element-wise `String(·)` over an array's members. -/
def jsToStringList : List JSVal → List String
  | [] => []
  | v :: vs => jsToString v :: jsToStringList vs

end

/-- Substring containment on character lists (JS `String.prototype.includes`). -/
def charsContain (sub : List Char) : List Char → Bool
  | [] => sub.isEmpty
  | c :: rest => sub.isPrefixOf (c :: rest) || charsContain sub rest

/-- JS `a.includes(b)` on strings: substring containment. -/
def jsIncludes (s sub : String) : Bool :=
  charsContain sub.toList s.toList

/-- JS `s.replace(/\.\./g, '.')` on the character list: left-to-right,
non-overlapping replacement of each `".."` by `"."`. -/
def unescapeDotsList : List Char → List Char
  | '.' :: '.' :: rest => '.' :: unescapeDotsList rest
  | c :: rest => c :: unescapeDotsList rest
  | [] => []

/-- JS `s.replace(/\.\./g, '.')`. -/
def unescapeDots (s : String) : String :=
  String.mk (unescapeDotsList s.toList)

/-- JS `parseInt(s, 10)`: skip leading whitespace, optional sign, longest
digit prefix; `none` models `NaN` (no digits). -/
def parseIntStr (s : String) : Option Int :=
  let cs := s.toList.dropWhile (fun c => c.isWhitespace)
  let signed : Bool × List Char :=
    match cs with
    | '-' :: rest => (true, rest)
    | '+' :: rest => (false, rest)
    | _ => (false, cs)
  let ds := signed.2.takeWhile (fun c => c.isDigit)
  if ds.isEmpty then none
  else
    let n : Nat := ds.foldl (fun acc c => acc * 10 + (c.toNat - 48)) 0
    some (if signed.1 then -(n : Int) else (n : Int))

/-- JS `a || b` for an optional string `a` (absent, i.e. `null`, and the
empty string are falsy). -/
def jsOrStr (o : Option String) (d : String) : String :=
  match o with
  | some s => if s = "" then d else s
  | none => d

/-- JS `a || b` for an integer-or-NaN `a` (`NaN` and `0` are falsy). -/
def jsOrInt (o : Option Int) (d : Int) : Int :=
  match o with
  | some n => if n = 0 then d else n
  | none => d

/-- JS template interpolation of a possibly-undefined integer
(as in `` `${endpoint.perPage}` ``). -/
def intOptToString (o : Option Int) : String :=
  match o with
  | some n => toString n
  | none => "undefined"

/-- `Math.ceil(a / b)` for integer operands (`b ≠ 0` at every use site in
the handler). -/
def jsCeilDiv (a b : Int) : Int :=
  -((-a).fdiv b)

/-- Accumulating splitter for `splitOnDot`. -/
def splitOnDotAux (cur : List Char) : List Char → List String
  | [] => [String.mk cur.reverse]
  | '.' :: rest => String.mk cur.reverse :: splitOnDotAux [] rest
  | c :: rest => splitOnDotAux (c :: cur) rest

/-- JS `s.split('.')`: e.g. `"a.b" ↦ ["a","b"]`, `"" ↦ [""]`,
`"a..b" ↦ ["a","","b"]`. -/
def splitOnDot (s : String) : List String :=
  splitOnDotAux [] s.toList

/-- A *Value Definition* (`FakerDefinition` in `src/types.d.ts`): a dotted
generator path, a callback receiving the generator capability, a nested
mapping, an ordered sequence, or a primitive leaf.  `undefined` models a JS
`undefined` leaf, which `resolveFakerValue` rejects up front. -/
inductive FakerDef where
  | str (s : String)
  | fn (f : Nat → JSVal × Nat)
  | num (n : Int)
  | bool (b : Bool)
  | null
  | undefined
  | arr (l : List FakerDef)
  | obj (l : List (String × FakerDef))

mutual

/-- `resolveFakerValue` (`src/fakerResolver.ts`): resolves a Value Definition
against the generator capability `g` (the `faker` object, a `JSVal`),
threading the pseudo-random state.  A dotted-path string is split on `.` and
walked member by member; an `undefined` result throws
`Invalid Faker path: <string>`; a function member is invoked, any other
member is returned as-is. -/
def resolveFakerValue (g : JSVal) : FakerDef → Nat → Except String (JSVal × Nat)
  | .undefined, _ => .error "Invalid Faker path: undefined"
  | .fn f, st => .ok (f st)
  | .str s, st =>
    match jsGetPath g (splitOnDot s) with
    | .undefined => .error ("Invalid Faker path: " ++ s)
    | .fn f => .ok (f st)
    | v => .ok (v, st)
  | .arr l, st =>
    match resolveFakerList g l st with
    | .ok (vs, st') => .ok (.arr vs, st')
    | .error e => .error e
  | .obj l, st =>
    match resolveFakerEntries g l st with
    | .ok (es, st') => .ok (.obj es, st')
    | .error e => .error e
  | .num n, st => .ok (.num n, st)
  | .bool b, st => .ok (.bool b, st)
  | .null, st => .ok (.null, st)

/-- `definition.map((def) => resolveFakerValue(def))`: element-wise
resolution of a sequence, threading generator state left to right. -/
def resolveFakerList (g : JSVal) : List FakerDef → Nat → Except String (List JSVal × Nat)
  | [], st => .ok ([], st)
  | d :: rest, st =>
    match resolveFakerValue g d st with
    | .ok (v, st') =>
      match resolveFakerList g rest st' with
      | .ok (vs, st'') => .ok (v :: vs, st'')
      | .error e => .error e
    | .error e => .error e

/-- `Object.entries(definition).map(([key, val]) => [key, resolveFakerValue(val)])`. -/
def resolveFakerEntries (g : JSVal) :
    List (String × FakerDef) → Nat → Except String (List (String × JSVal) × Nat)
  | [], st => .ok ([], st)
  | (k, d) :: rest, st =>
    match resolveFakerValue g d st with
    | .ok (v, st') =>
      match resolveFakerEntries g rest st' with
      | .ok (es, st'') => .ok ((k, v) :: es, st'')
      | .error e => .error e
    | .error e => .error e

end

/-- `resolveResponsePropValue` (`src/handlers.ts`): a string containing a `.`
but no `..` is resolved as a generator path; any other string has every `..`
unescaped to `.` and is passed through literally; numbers and booleans pass
through; everything else goes to `resolveFakerValue`. -/
def resolveResponsePropValue (g : JSVal) (key : String) (value : FakerDef)
    (st : Nat) : Except String ((String × JSVal) × Nat) :=
  match value with
  | .str s =>
    if jsIncludes s "." && !jsIncludes s ".." then
      match resolveFakerValue g (.str s) st with
      | .ok (v, st') => .ok ((key, v), st')
      | .error e => .error e
    else
      .ok ((key, .str (unescapeDots s)), st)
  | .num n => .ok ((key, .num n), st)
  | .bool b => .ok ((key, .bool b), st)
  | other =>
    match resolveFakerValue g other st with
    | .ok (v, st') => .ok ((key, v), st')
    | .error e => .error e

/-- `SortOrder` (`src/types.d.ts`). -/
inductive SortOrder where
  | asc
  | desc
deriving DecidableEq

/-- JS `ToNumber` coercion for the value forms compared by `sortData`
(restricted to integer-valued results; `none` models `NaN`). -/
def jsToNum : JSVal → Option Int
  | .num n => some n
  | .bool b => some (if b then 1 else 0)
  | .null => some 0
  | .str s => if s = "" then some 0 else
      (if s.toList.all (fun c => c.isDigit) && !s.toList.isEmpty
       then some ((s.toList.foldl (fun acc c => acc * 10 + (c.toNat - 48)) 0 : Nat) : Int)
       else none)
  | _ => none

/-- Lexicographic character-list comparison (JS `<` on strings, by code
unit). -/
def charsLt : List Char → List Char → Bool
  | [], [] => false
  | [], _ :: _ => true
  | _ :: _, [] => false
  | a :: as, b :: bs =>
    if a.val < b.val then true
    else if b.val < a.val then false
    else charsLt as bs

/-- JS abstract relational comparison `a < b` for the value forms the sort
comparator meets: string–string compares lexicographically, otherwise both
sides coerce to numbers (`NaN` on either side makes the comparison false). -/
def jsLt (a b : JSVal) : Bool :=
  match a, b with
  | .str x, .str y => charsLt x.toList y.toList
  | _, _ =>
    match jsToNum a, jsToNum b with
    | some x, some y => decide (x < y)
    | _, _ => false

/-- The comparator of `sortData` (`src/handlers.ts` lines 89–96): `0` when
either side's sort field is `undefined`, otherwise `±1` by `<`/`>` with the
sign flipped for descending order. -/
def sortCompare (sortField : String) (order : SortOrder) (a b : RecordObj) : Int :=
  let valA := (objGetOpt a sortField).getD .undefined
  let valB := (objGetOpt b sortField).getD .undefined
  match valA with
  | .undefined => 0
  | va =>
    match valB with
    | .undefined => 0
    | vb =>
      if jsLt va vb then (if order = .desc then 1 else -1)
      else if jsLt vb va then (if order = .desc then -1 else 1)
      else 0

/-- Stable insertion used to model `Array.prototype.sort` (which is a stable
sort): the inserted element goes before the first element it must precede,
and after elements that compare equal to it. -/
def stableInsert (le : RecordObj → RecordObj → Bool) (x : RecordObj) :
    List RecordObj → List RecordObj
  | [] => [x]
  | y :: ys => if le x y then x :: y :: ys else y :: stableInsert le x ys

/-- Stable insertion sort: the model of JS `Array.prototype.sort` with a
comparator (stable per the ECMAScript specification). -/
def stableSort (le : RecordObj → RecordObj → Bool) : List RecordObj → List RecordObj
  | [] => []
  | x :: xs => stableInsert le x (stableSort le xs)

/-- `sortData` (`src/handlers.ts`): sorts by `sortField` in the given order
using the JS comparator; an element precedes another when the comparator is
`≤ 0`. -/
def sortData (data : List RecordObj) (sortField : String) (order : SortOrder) :
    List RecordObj :=
  stableSort (fun a b => decide (sortCompare sortField order a b ≤ 0)) data

/-- `filterData` (`src/handlers.ts`):
`data.filter((item) => String(item[filterField]).includes(filterValue))`. -/
def filterData (data : List RecordObj) (filterField : String) (filterValue : String) :
    List RecordObj :=
  data.filter (fun item =>
    jsIncludes (jsToString ((objGetOpt item filterField).getD .undefined)) filterValue)

/-- `searchData` (`src/handlers.ts`): keep a record when the lowercased
string form of any field value contains the lowercased search value. -/
def searchData (data : List RecordObj) (searchValue : String) : List RecordObj :=
  let lowercaseSearchValue := searchValue.toLower
  data.filter (fun item =>
    item.any (fun kv => jsIncludes (jsToString kv.2).toLower lowercaseSearchValue))

/-- JS object update `o[k] = v` semantics used to model an object literal
built by spread: overwrite in place when the key exists, append otherwise. -/
def objSet (o : RecordObj) (k : String) (v : JSVal) : RecordObj :=
  if o.any (fun p => p.1 == k) then
    o.map (fun p => if p.1 == k then (k, v) else p)
  else
    o ++ [(k, v)]

/-- The record literal `{ id: <injected>, ...resolvedProps }`
(`src/handlers.ts` lines 277–280): the injected sequential id first, then the
resolved properties spread over it (later keys overwrite). -/
def buildRecord (injectedId : Int) (resolvedProps : List (String × JSVal)) : RecordObj :=
  resolvedProps.foldl (fun o kv => objSet o kv.1 kv.2) [("id", JSVal.num injectedId)]

/-- Data generation (`src/handlers.ts` lines 269–281): one record per index,
each resolving `responseProps` afresh (generator state advances across
records) and injecting the window id. -/
def generateData (g : JSVal) (responseProps : List (String × FakerDef))
    (isPaginationEnabled : Bool) (startId : Option Int) :
    List Nat → Nat → Except String (List RecordObj × Nat)
  | [], st => .ok ([], st)
  | i :: rest, st =>
    match resolveFakerEntries g responseProps st with
    | .ok (props, st') =>
      match generateData g responseProps isPaginationEnabled startId rest st' with
      | .ok (rs, st'') =>
        .ok (buildRecord
              (if isPaginationEnabled then startId.getD 0 + (i : Int) else (i : Int) + 1)
              props :: rs, st'')
      | .error e => .error e
    | .error e => .error e

/-- The search/filter/sort block (`src/handlers.ts` lines 283–293): search
runs when the search value is truthy, filter when both field and value are
truthy, and sort whenever `sortParam` is truthy — which it always is, since
`sortParam` defaults to the literal `'sort'`. -/
def applyTransforms (data : List RecordObj) (searchValue : String)
    (filterField filterValue : String) (sortParam sortField : String)
    (orderParam : SortOrder) : List RecordObj :=
  let filteredData := if data.isEmpty then [] else data
  let filteredData :=
    if searchValue ≠ "" then searchData filteredData searchValue else filteredData
  let filteredData :=
    if filterField ≠ "" ∧ filterValue ≠ "" then
      filterData filteredData filterField filterValue
    else filteredData
  if sortParam ≠ "" then sortData filteredData sortField orderParam else filteredData

/-- Response shaping (`src/handlers.ts` lines 296–308): a singular endpoint
returns the first transformed record (`filteredData[0] || {}`), otherwise the
`{ data, page, per_page, total, total_pages }` envelope.  A `NaN` `per_page`
serializes as `null`. -/
def shapeResult (singular : Bool) (filteredData : List RecordObj) (page : Int)
    (perPage : Option Int) (total totalPages : Int) (isPaginationEnabled : Bool) :
    JSVal :=
  if singular then
    JSVal.obj (filteredData.headD [])
  else
    JSVal.obj
      [("data", JSVal.arr (filteredData.map JSVal.obj)),
       ("page", JSVal.num page),
       ("per_page",
         if isPaginationEnabled then
           match perPage with
           | some p => JSVal.num p
           | none => JSVal.null
         else JSVal.num total),
       ("total", JSVal.num total),
       ("total_pages", JSVal.num totalPages)]

/-- The modelled slice of `EndpointConfig` (`src/types.d.ts`): the fields the
generation/transform/shape core of `createEndpointHandler` reads.  Optional
fields are `Option`; `pagination := false` models both `false` and absent
(both are falsy in `endpoint.pagination || …`). -/
structure Endpoint where
  pagination : Bool := false
  perPage : Option Int := none
  total : Option Int := none
  singular : Bool := false
  seed : Option Nat := none
  responseProps : List (String × FakerDef) := []
  qpSearch : Option String := none
  qpSort : Option String := none
  qpOrder : Option String := none
  qpFilter : Option String := none
  qpPerPage : Option String := none
  qpTotal : Option String := none

/-- A request's query string as an ordered key/value list;
`URLSearchParams.get` returns the first value for a key, `null` if absent. -/
abbrev Query := List (String × String)

/-- `url.searchParams.get(k)`. -/
def qget (q : Query) (k : String) : Option String :=
  (q.find? (fun p => p.1 == k)).map (fun p => p.2)

/-- `isValidSortOrder` (`src/handlers.ts`): accepts exactly the strings
`'asc'` and `'desc'`. -/
def isValidSortOrder (order : Option String) : Option SortOrder :=
  match order with
  | some "asc" => some .asc
  | some "desc" => some .desc
  | _ => none

/-- `total pages of results (defaults to 1)`:
`Math.max(1, Math.ceil(total / (perPage || total)))` — a `NaN` or `0`
`perPage` falls back to `total` as the divisor. -/
def totalPagesOf (total : Int) (perPage : Option Int) : Int :=
  max 1 (jsCeilDiv total (jsOrInt perPage total))

/-- The requested page (`src/handlers.ts` lines 212–216):
`Math.max(parseInt(url.searchParams.get('page') ?? '1', 10) || 1)` followed
by `Math.min(page, totalPages)`.  `Math.max` is called with a single
argument, so it is the identity: there is no lower clamp. -/
def resolvePage (pageQ : Option String) (totalPages : Int) : Int :=
  let raw := jsOrInt (parseIntStr (match pageQ with | some s => s | none => "1")) 1
  min raw totalPages

/-- `startId = (page - 1) * perPage + 1` when pagination is enabled, else
`1`; a `NaN` `perPage` propagates. -/
def startIdOf (isPaginationEnabled : Bool) (page : Int) (perPage : Option Int) :
    Option Int :=
  if isPaginationEnabled then perPage.map (fun p => (page - 1) * p + 1) else some 1

/-- `endId = Math.min(startId + perPage - 1, total)` when pagination is
enabled, else `total`; `NaN` propagates. -/
def endIdOf (isPaginationEnabled : Bool) (startId perPage : Option Int)
    (total : Int) : Option Int :=
  if isPaginationEnabled then
    match startId, perPage with
    | some s, some p => some (min (s + p - 1) total)
    | _, _ => none
  else some total

/-- `Array.from({length: …})`: the element count, with a negative or `NaN`
length giving zero. -/
def windowCount (isPaginationEnabled : Bool) (startId endId : Option Int)
    (total : Int) : Nat :=
  if isPaginationEnabled then
    match startId, endId with
    | some s, some e => (max 0 (e - s + 1)).toNat
    | _, _ => 0
  else (max 0 total).toNat

/-- `faker.seed(n)`: the generator's state after seeding with `n`; the
generator is opaque, so the post-seed state is modelled as the seed itself —
all that matters is that it is a function of the seed alone. -/
def fakerSeed (seed : Nat) : Nat := seed

/-- The per-request seeding step (`src/handlers.ts` lines 243–245):
`if (endpoint.seed) faker.seed(endpoint.seed)` — a configured non-zero seed
replaces the process state, an absent (or zero, falsy) seed leaves it
untouched. -/
def seededState (seed : Option Nat) (st : Nat) : Nat :=
  match seed with
  | some s => if s = 0 then st else fakerSeed s
  | none => st

/-- The generation/transform/shape core of `createEndpointHandler`
(`src/handlers.ts` lines 174–308), for requests that pass the
method/error-rate/cache/condition/static-response gates: parse the query
parameters, compute the pagination window, seed the generator, generate the
records, apply search/filter/sort, and shape the body. -/
def handleCore (g : JSVal) (ep : Endpoint) (q : Query) (st : Nat) :
    Except String JSVal :=
  let searchParam := jsOrStr ep.qpSearch "q"
  let sortParam := jsOrStr ep.qpSort "sort"
  let orderParam := (isValidSortOrder ep.qpOrder).getD .asc
  let filterParam := jsOrStr ep.qpFilter "filter"
  let searchValue := jsOrStr (qget q searchParam) (jsOrStr (qget q "q") "")
  let sortField := jsOrStr (qget q sortParam) "sort"
  let filterField := match qget q filterParam with | some s => s | none => ""
  let filterValue := match qget q filterField with | some s => s | none => ""
  let perPage : Option Int :=
    parseIntStr (jsOrStr (qget q (jsOrStr ep.qpPerPage "per_page"))
      (intOptToString ep.perPage))
  let total : Int :=
    jsOrInt (parseIntStr (jsOrStr (qget q (jsOrStr ep.qpTotal "total"))
      (intOptToString ep.total))) 10
  let isPaginationEnabled :=
    ep.pagination || (match perPage with | some p => decide (0 < p) | none => false)
  let totalPages := totalPagesOf total perPage
  let page := resolvePage (qget q "page") totalPages
  let startId := startIdOf isPaginationEnabled page perPage
  let endId := endIdOf isPaginationEnabled startId perPage total
  let st := seededState ep.seed st
  let count := windowCount isPaginationEnabled startId endId total
  match generateData g ep.responseProps isPaginationEnabled startId
    (List.range count) st with
  | .error e => .error e
  | .ok (data, _) =>
    let filteredData :=
      applyTransforms data searchValue filterField filterValue sortParam
        sortField orderParam
    .ok (shapeResult ep.singular filteredData page perPage total totalPages
      isPaginationEnabled)

/-- The response cache (`src/handlers.ts` line 10): a plain
`Map<string, any>`, modelled as an insertion-ordered association list.
`Map.prototype.set` overwrites an existing key in place and appends a new
one; nothing is ever evicted. -/
def cacheSet (store : List (String × JSVal)) (k : String) (v : JSVal) :
    List (String × JSVal) :=
  if store.any (fun p => p.1 == k) then
    store.map (fun p => if p.1 == k then (k, v) else p)
  else
    store ++ [(k, v)]

/-- `Map.prototype.get` on the modelled cache store. -/
def cacheGet (store : List (String × JSVal)) (k : String) : Option JSVal :=
  (store.find? (fun p => p.1 == k)).map (fun p => p.2)

/-- A small concrete generator capability used to instantiate witnesses: a
`person.firstName` member that produces a string and advances the state. -/
def fakerSample : JSVal :=
  JSVal.obj [("person",
    JSVal.obj [("firstName", JSVal.fn (fun st => (JSVal.str "Ada", st + 1)))])]

/-- C1: an endpoint with `total = 25` and `perPage = 10`, requested with
`page = 2` and no search/filter/sort query parameters, answers an envelope of
exactly 10 records with ids 11..20 in order and `total_pages = 3`; and for
positive `perPage` the window arithmetic is
`totalPages = max(1, ceil(total / perPage))`,
`startId = (page - 1) * perPage + 1`,
`endId = min(startId + perPage - 1, total)`. -/
theorem C1_pagination_arithmetic :
    (∀ (g : JSVal) (st : Nat),
      handleCore g { perPage := some 10, total := some 25 } [("page", "2")] st =
        .ok (JSVal.obj
          [("data", JSVal.arr ((List.range 10).map
              (fun i => JSVal.obj [("id", JSVal.num (11 + (i : Int)))]))),
           ("page", JSVal.num 2),
           ("per_page", JSVal.num 10),
           ("total", JSVal.num 25),
           ("total_pages", JSVal.num 3)])) ∧
    (∀ (total perPage page : Int), 0 < perPage →
      totalPagesOf total (some perPage) = max 1 (jsCeilDiv total perPage) ∧
      startIdOf true page (some perPage) = some ((page - 1) * perPage + 1) ∧
      endIdOf true (some ((page - 1) * perPage + 1)) (some perPage) total =
        some (min ((page - 1) * perPage + 1 + perPage - 1) total)) := by
  refine ⟨fun g st => rfl, fun total perPage page hp => ⟨?_, rfl, rfl⟩⟩
  show max 1 (jsCeilDiv total (jsOrInt (some perPage) total)) =
    max 1 (jsCeilDiv total perPage)
  have hj : jsOrInt (some perPage) total = perPage := by
    show (if perPage = 0 then total else perPage) = perPage
    rw [if_neg (by omega)]
  rw [hj]

/-- Witness for C1 at `total = 25`, `perPage = 10`, `page = 2`. -/
theorem C1_pagination_arithmetic_witness :
    (0 : Int) < 10 ∧ totalPagesOf 25 (some 10) = max 1 (jsCeilDiv 25 10) ∧
      totalPagesOf 25 (some 10) = 3 :=
  ⟨by decide, (C1_pagination_arithmetic.2 25 10 2 (by decide)).1, by decide⟩

/-- C2 (code bug): the requested page is clamped from above by
`Math.min(page, totalPages)` — with `total = 5`, `perPage = 2`, `page = 10`
the response is page 3 with the single record id 5 — but the lower clamp is
broken: `Math.max` is called with a single argument, so a negative `page`
query (e.g. `page = -5`) is not redirected to page 1 and the handler emits
records with negative ids. -/
theorem C2_page_clamp :
    (∀ (g : JSVal) (st : Nat),
      handleCore g { perPage := some 2, total := some 5 } [("page", "10")] st =
        .ok (JSVal.obj
          [("data", JSVal.arr [JSVal.obj [("id", JSVal.num 5)]]),
           ("page", JSVal.num 3),
           ("per_page", JSVal.num 2),
           ("total", JSVal.num 5),
           ("total_pages", JSVal.num 3)])) ∧
    resolvePage (some "-5") 3 = -5 ∧
    resolvePage (some "-5") 3 < 1 ∧
    (∀ (g : JSVal) (st : Nat),
      handleCore g { perPage := some 2, total := some 5 } [("page", "-5")] st =
        .ok (JSVal.obj
          [("data", JSVal.arr [JSVal.obj [("id", JSVal.num (-11))],
                               JSVal.obj [("id", JSVal.num (-10))]]),
           ("page", JSVal.num (-5)),
           ("per_page", JSVal.num 2),
           ("total", JSVal.num 5),
           ("total_pages", JSVal.num 3)])) :=
  ⟨fun g st => rfl, by decide, by decide, fun g st => rfl⟩

/-- C4: a Value Definition string leaf whose dotted path walks to
`undefined` in the generator capability makes `resolveFakerValue` fail with
`Invalid Faker path: <string>` (never a silent `null`), and the failure
propagates through `resolveResponsePropValue` when the string is treated as
a generator path. -/
theorem C4_invalid_path_fails (g : JSVal) (s : String) (st : Nat)
    (h : jsGetPath g (splitOnDot s) = .undefined) :
    resolveFakerValue g (.str s) st = .error ("Invalid Faker path: " ++ s) ∧
    (∀ key : String, jsIncludes s "." = true → jsIncludes s ".." = false →
      resolveResponsePropValue g key (.str s) st =
        .error ("Invalid Faker path: " ++ s)) := by
  have hres : resolveFakerValue g (.str s) st =
      .error ("Invalid Faker path: " ++ s) := by
    unfold resolveFakerValue
    rw [h]
  refine ⟨hres, fun key h1 h2 => ?_⟩
  show (if (jsIncludes s "." && !jsIncludes s "..") = true then
      match resolveFakerValue g (.str s) st with
      | .ok (v, st') => .ok ((key, v), st')
      | .error e => .error e
    else .ok ((key, JSVal.str (unescapeDots s)), st)) =
    Except.error ("Invalid Faker path: " ++ s)
  rw [h1, h2, hres]
  simp

/-- Witness for C4 at the leaf `"nonexistent.path"` against a concrete
generator capability. -/
theorem C4_invalid_path_fails_witness :
    jsGetPath fakerSample (splitOnDot "nonexistent.path") = .undefined ∧
    resolveFakerValue fakerSample (.str "nonexistent.path") 0 =
      .error "Invalid Faker path: nonexistent.path" ∧
    resolveResponsePropValue fakerSample "v" (.str "nonexistent.path") 0 =
      .error "Invalid Faker path: nonexistent.path" :=
  ⟨rfl,
   (C4_invalid_path_fails fakerSample "nonexistent.path" 0 rfl).1,
   (C4_invalid_path_fails fakerSample "nonexistent.path" 0 rfl).2 "v"
     (by decide) (by decide)⟩

/-- C5: a string leaf containing a literal `..` is never resolved as a
generator path: every `..` is unescaped to `.` and the string passes through
literally, with the generator state untouched. -/
theorem C5_escaped_periods (g : JSVal) (key s : String) (st : Nat)
    (h : jsIncludes s ".." = true) :
    resolveResponsePropValue g key (.str s) st =
      .ok ((key, .str (unescapeDots s)), st) := by
  show (if (jsIncludes s "." && !jsIncludes s "..") = true then
      match resolveFakerValue g (FakerDef.str s) st with
      | Except.ok (v, st') => Except.ok ((key, v), st')
      | Except.error e => Except.error e
    else Except.ok ((key, JSVal.str (unescapeDots s)), st)) =
    Except.ok ((key, JSVal.str (unescapeDots s)), st)
  rw [h]
  simp

/-- A key absent from an association list looks up to `none`. -/
theorem objGetOpt_eq_none_of_not_mem (o : RecordObj) (k : String)
    (h : k ∉ o.map Prod.fst) : objGetOpt o k = none := by
  induction o with
  | nil => rfl
  | cons p rest ih =>
    simp only [List.map_cons, List.mem_cons] at h
    push_neg at h
    unfold objGetOpt
    rw [List.find?_cons_of_neg]
    · exact ih h.2
    · simp only [beq_iff_eq]
      exact fun e => h.1 e.symm

/-- C6: at the shaping step, a `singular` endpoint answers the bare first
transformed record (empty mapping when none survived) — in particular
without the envelope's `data`/`page` keys when the record itself lacks
them — while a non-singular endpoint answers the
`{ data, page, per_page, total, total_pages }` envelope holding the
transformed record list. -/
theorem C6_response_shape (d : List RecordObj) (page : Int) (pp : Option Int)
    (total totalPages : Int) (isPag : Bool) :
    (shapeResult true d page pp total totalPages isPag =
      JSVal.obj (d.headD [])) ∧
    ("data" ∉ (d.headD []).map Prod.fst → "page" ∉ (d.headD []).map Prod.fst →
      jsGetField (shapeResult true d page pp total totalPages isPag) "data" =
        JSVal.undefined ∧
      jsGetField (shapeResult true d page pp total totalPages isPag) "page" =
        JSVal.undefined) ∧
    (shapeResult false d page pp total totalPages isPag =
      JSVal.obj
        [("data", JSVal.arr (d.map JSVal.obj)),
         ("page", JSVal.num page),
         ("per_page",
           if isPag then
             match pp with
             | some p => JSVal.num p
             | none => JSVal.null
           else JSVal.num total),
         ("total", JSVal.num total),
         ("total_pages", JSVal.num totalPages)]) := by
  have hsing : shapeResult true d page pp total totalPages isPag =
      JSVal.obj (d.headD []) := rfl
  refine ⟨hsing, fun hd hp => ?_, rfl⟩
  rw [hsing]
  show (objGetOpt (d.headD []) "data").getD JSVal.undefined = JSVal.undefined ∧
    (objGetOpt (d.headD []) "page").getD JSVal.undefined = JSVal.undefined
  rw [objGetOpt_eq_none_of_not_mem _ _ hd, objGetOpt_eq_none_of_not_mem _ _ hp]
  exact ⟨rfl, rfl⟩

/-- Witness for C6 on a one-record list whose record has only an `id`
field. -/
theorem C6_response_shape_witness :
    shapeResult true [[("id", JSVal.num 7)]] 1 (some 2) 5 3 true =
      JSVal.obj [("id", JSVal.num 7)] ∧
    jsGetField (shapeResult true [[("id", JSVal.num 7)]] 1 (some 2) 5 3 true)
      "data" = JSVal.undefined ∧
    jsGetField (shapeResult true [[("id", JSVal.num 7)]] 1 (some 2) 5 3 true)
      "page" = JSVal.undefined :=
  ⟨(C6_response_shape [[("id", JSVal.num 7)]] 1 (some 2) 5 3 true).1,
   ((C6_response_shape [[("id", JSVal.num 7)]] 1 (some 2) 5 3 true).2.1
     (by decide) (by decide)).1,
   ((C6_response_shape [[("id", JSVal.num 7)]] 1 (some 2) 5 3 true).2.1
     (by decide) (by decide)).2⟩

/-- C7: with a (non-zero, hence actually applied) configured seed, the
per-request seeding step makes resolution of a Value Definition sequence
independent of the prior process-wide generator state: two runs re-seeded
with the same seed produce identical output sequences. -/
theorem C7_seeded_determinism (g : JSVal) (defs : List FakerDef) (seed : Nat)
    (st1 st2 : Nat) (h : seed ≠ 0) :
    resolveFakerList g defs (seededState (some seed) st1) =
      resolveFakerList g defs (seededState (some seed) st2) := by
  show resolveFakerList g defs (if seed = 0 then st1 else fakerSeed seed) =
    resolveFakerList g defs (if seed = 0 then st2 else fakerSeed seed)
  rw [if_neg h, if_neg h]

/-- Witness for C7: seed 123, two different prior states, a sequence with a
path leaf and a nested mapping. -/
theorem C7_seeded_determinism_witness :
    (123 : Nat) ≠ 0 ∧
    resolveFakerList fakerSample
      [.str "person.firstName", .obj [("name", .str "person.firstName")]]
      (seededState (some 123) 0) =
    resolveFakerList fakerSample
      [.str "person.firstName", .obj [("name", .str "person.firstName")]]
      (seededState (some 123) 57) :=
  ⟨by decide,
   C7_seeded_determinism fakerSample
     [.str "person.firstName", .obj [("name", .str "person.firstName")]]
     123 0 57 (by decide)⟩

/-- C3 counterexample: the filter stage is *not* exact string equality — a
record whose field stringifies to `"abc"` survives `filterValue = "b"`
because the code tests substring containment (`String(...).includes`), yet
`"abc" ≠ "b"`. -/
theorem C3_counterexample_substring_survives :
    filterData [[("f", JSVal.str "abc")]] "f" "b" =
      [[("f", JSVal.str "abc")]] ∧
    jsToString ((objGetOpt [("f", JSVal.str "abc")] "f").getD JSVal.undefined) ≠ "b" :=
  ⟨rfl, by decide⟩

/-- C3 (amended): a record survives the filter stage if and only if the
filter value occurs as a *substring* of the string representation of the
record's named field (JS `String(item[filterField]).includes(filterValue)`),
and surviving records keep their order as a sublist. -/
theorem C3_filter_is_substring_match (data : List RecordObj)
    (filterField filterValue : String) (r : RecordObj) :
    r ∈ filterData data filterField filterValue ↔
      r ∈ data ∧
      jsIncludes (jsToString ((objGetOpt r filterField).getD JSVal.undefined))
        filterValue = true := by
  unfold filterData
  exact List.mem_filter

/-- Membership in the first list of an append-`find?`. -/
theorem find?_map_overwrite_self (l : List (String × JSVal)) (k : String)
    (v : JSVal) (hany : l.any (fun p => p.1 == k) = true) :
    (l.map (fun p => if p.1 == k then (k, v) else p)).find?
      (fun p => p.1 == k) = some (k, v) := by
  induction l with
  | nil => simp at hany
  | cons p rest ih =>
    rw [List.map_cons]
    by_cases hp : p.1 = k
    · rw [if_pos (by simpa), List.find?_cons_of_pos _ (by simp)]
    · rw [if_neg (by simpa), List.find?_cons_of_neg _ (by simpa)]
      apply ih
      simpa [hp] using hany

/-- `objSet o k v` makes `k` look up to `v`. -/
theorem objGetOpt_objSet_self (o : RecordObj) (k : String) (v : JSVal) :
    objGetOpt (objSet o k v) k = some v := by
  unfold objSet
  by_cases hany : o.any (fun p => p.1 == k) = true
  · rw [if_pos hany]
    unfold objGetOpt
    rw [find?_map_overwrite_self o k v hany]
    rfl
  · rw [if_neg hany]
    unfold objGetOpt
    rw [List.find?_append]
    have hnone : o.find? (fun p => p.1 == k) = none := by
      rw [List.find?_eq_none]
      intro x hx hpx
      exact hany (List.any_eq_true.mpr ⟨x, hx, hpx⟩)
    rw [hnone]
    simp [List.find?]

/-- Overwriting the entries keyed `k` does not change `find?` for another
key `k'`. -/
theorem find?_map_overwrite_other (l : List (String × JSVal)) (k k' : String)
    (v : JSVal) (h : k' ≠ k) :
    (l.map (fun p => if p.1 == k then (k, v) else p)).find?
        (fun p => p.1 == k') =
      l.find? (fun p => p.1 == k') := by
  induction l with
  | nil => rfl
  | cons p rest ih =>
    rw [List.map_cons]
    by_cases hp : p.1 = k
    · rw [if_pos (by simpa)]
      rw [List.find?_cons_of_neg _ (by simp only [beq_iff_eq]; exact fun e => h e.symm),
          List.find?_cons_of_neg _ (by simp only [beq_iff_eq, hp]; exact fun e => h e.symm)]
      exact ih
    · rw [if_neg (by simpa)]
      by_cases hpk : p.1 = k'
      · rw [List.find?_cons_of_pos _ (by simpa), List.find?_cons_of_pos _ (by simpa)]
      · rw [List.find?_cons_of_neg _ (by simpa), List.find?_cons_of_neg _ (by simpa)]
        exact ih

/-- `objSet o k v` leaves every other key's lookup unchanged. -/
theorem objGetOpt_objSet_other (o : RecordObj) (k k' : String) (v : JSVal)
    (h : k' ≠ k) : objGetOpt (objSet o k v) k' = objGetOpt o k' := by
  unfold objSet
  by_cases hany : o.any (fun p => p.1 == k) = true
  · rw [if_pos hany]
    unfold objGetOpt
    rw [find?_map_overwrite_other o k k' v h]
  · rw [if_neg hany]
    unfold objGetOpt
    rw [List.find?_append]
    have hke : (k == k') = false := by
      simp only [beq_eq_false_iff_ne, ne_eq]
      exact fun e => h e.symm
    have hlast : List.find? (fun p => p.1 == k') [(k, v)] = none := by
      simp only [List.find?, hke]
    rw [hlast]
    simp

/-- Witness for C5: the leaf `"Hi.. there"` resolves to exactly the literal
string `"Hi. there"`. -/
theorem C5_escaped_periods_witness :
    jsIncludes "Hi.. there" ".." = true ∧
    resolveResponsePropValue JSVal.null "greeting" (.str "Hi.. there") 0 =
      .ok (("greeting", .str "Hi. there"), 0) := by
  refine ⟨by decide, ?_⟩
  have h := C5_escaped_periods JSVal.null "greeting" "Hi.. there" 0 (by decide)
  rw [show unescapeDots "Hi.. there" = "Hi. there" from rfl] at h
  exact h

/-- The value of the *last* entry for key `k` (this is what a JS object
literal keeps when the same key is written repeatedly). -/
def lastVal (props : List (String × JSVal)) (k : String) : Option JSVal :=
  (props.reverse.find? (fun p => p.1 == k)).map (fun p => p.2)

/-- Spreading `props` over an accumulator object: the key looks up to the
last value written in `props`, or to its value in the accumulator when
`props` never writes it. -/
theorem objGetOpt_foldl_objSet (props : List (String × JSVal)) (k : String) :
    ∀ acc : RecordObj,
      objGetOpt (props.foldl (fun o kv => objSet o kv.1 kv.2) acc) k =
        match lastVal props k with
        | some v => some v
        | none => objGetOpt acc k := by
  induction props with
  | nil => intro acc; rfl
  | cons kv rest ih =>
    intro acc
    rw [List.foldl_cons, ih]
    have hcons : lastVal (kv :: rest) k =
        (lastVal rest k).or (if kv.1 == k then some kv.2 else none) := by
      unfold lastVal
      rw [List.reverse_cons, List.find?_append]
      cases rest.reverse.find? (fun p => p.1 == k) with
      | none =>
        simp only [Option.map_none, Option.none_or, List.find?]
        cases hkv : (kv.1 == k) with
        | true => rfl
        | false => rfl
      | some p => rfl
    rw [hcons]
    cases hl : lastVal rest k with
    | some v => rfl
    | none =>
      simp only [Option.none_or]
      by_cases hk : kv.1 = k
      · rw [if_pos (by simpa)]
        rw [hk, objGetOpt_objSet_self]
      · rw [if_neg (by simpa)]
        exact objGetOpt_objSet_other acc kv.1 k kv.2 (fun e => hk e.symm)

/-- C10: in every generated record `{ id: <window id>, ...resolvedProps }`,
the spread comes after the injected id, so a resolved `id` property
overwrites the sequential id: the record's `id` field is the (last) resolved
`id` value when `responseProps` defines one, and the injected window id only
otherwise.  Concretely, an endpoint with `responseProps = { id: 999 }`
answers records whose ids are all `999` instead of the pagination-window
ids. -/
theorem C10_responseProps_id_overrides :
    (∀ (n : Int) (props : List (String × JSVal)),
      objGetOpt (buildRecord n props) "id" =
        some ((lastVal props "id").getD (JSVal.num n))) ∧
    (∀ (g : JSVal) (st : Nat),
      handleCore g
        { perPage := some 2, total := some 5,
          responseProps := [("id", FakerDef.num 999)] } [] st =
      .ok (JSVal.obj
        [("data", JSVal.arr [JSVal.obj [("id", JSVal.num 999)],
                             JSVal.obj [("id", JSVal.num 999)]]),
         ("page", JSVal.num 1),
         ("per_page", JSVal.num 2),
         ("total", JSVal.num 5),
         ("total_pages", JSVal.num 3)])) := by
  refine ⟨fun n props => ?_, fun g st => rfl⟩
  unfold buildRecord
  rw [objGetOpt_foldl_objSet]
  cases lastVal props "id" with
  | none => rfl
  | some v => rfl

set_option maxRecDepth 4000 in
/-- C8 counterexample: the response cache is a plain `Map` with no eviction
policy at all — inserting 101 distinct keys leaves 101 entries, exceeding
the claimed 100-entry capacity. -/
theorem C8_counterexample_unbounded_growth :
    ¬ ((((List.range 101).map (fun i => "k" ++ toString i)).foldl
      (fun m k => cacheSet m k JSVal.null) []).length ≤ 100) := by
  decide

/-- C8 (amended): the cache store is unbounded and never evicts: an insert
never removes an entry (the size grows by exactly one on a fresh key and is
unchanged on an existing key), no entry has a time-to-live, and every other
key's cached value survives each insertion verbatim. -/
theorem C8_cache_never_evicts (store : List (String × JSVal)) (k : String)
    (v : JSVal) :
    (cacheSet store k v).length =
      store.length + (if store.any (fun p => p.1 == k) then 0 else 1) ∧
    (∀ k' : String, k' ≠ k →
      cacheGet (cacheSet store k v) k' = cacheGet store k') := by
  constructor
  · unfold cacheSet
    by_cases hany : store.any (fun p => p.1 == k) = true
    · rw [if_pos hany, if_pos hany, List.length_map]
      rfl
    · rw [if_neg hany, if_neg hany, List.length_append]
      rfl
  · intro k' hk'
    show objGetOpt (objSet store k v) k' = objGetOpt store k'
    exact objGetOpt_objSet_other store k k' v hk'

/-- Witness for C8 (amended) at a concrete store, key and spectator key. -/
theorem C8_cache_never_evicts_witness :
    (cacheSet [("a?x=1", JSVal.num 1)] "b?x=2" JSVal.null).length =
      [("a?x=1", JSVal.num 1)].length + 1 ∧
    cacheGet (cacheSet [("a?x=1", JSVal.num 1)] "b?x=2" JSVal.null) "a?x=1" =
      cacheGet [("a?x=1", JSVal.num 1)] "a?x=1" :=
  ⟨((C8_cache_never_evicts [("a?x=1", JSVal.num 1)] "b?x=2" JSVal.null).1).trans
     (by decide),
   (C8_cache_never_evicts [("a?x=1", JSVal.num 1)] "b?x=2" JSVal.null).2
     "a?x=1" (by decide)⟩

/-- A stable sort whose comparator never demands a swap returns the list
unchanged. -/
theorem stableSort_eq_self (le : RecordObj → RecordObj → Bool)
    (l : List RecordObj) (h : ∀ a ∈ l, ∀ b ∈ l, le a b = true) :
    stableSort le l = l := by
  induction l with
  | nil => rfl
  | cons x xs ih =>
    have hxs : ∀ a ∈ xs, ∀ b ∈ xs, le a b = true := fun a ha b hb =>
      h a (List.mem_cons_of_mem _ ha) b (List.mem_cons_of_mem _ hb)
    unfold stableSort
    rw [ih hxs]
    cases xs with
    | nil => rfl
    | cons y ys =>
      unfold stableInsert
      rw [h x (List.mem_cons_self _ _) y (by simp)]
      rfl

/-- The record list the C9 counterexample feeds to the pipeline: two
generated records carrying a `sort` field (e.g. from a `sort` key in
`responseProps`). -/
def dataC9 : List RecordObj :=
  [[("id", JSVal.num 1), ("sort", JSVal.num 2)],
   [("id", JSVal.num 2), ("sort", JSVal.num 1)]]

/-- The numeric `id` of the first record, used to tell record lists
apart. -/
def firstIdOf (l : List RecordObj) : Option Int :=
  match objGetOpt (l.headD []) "id" with
  | some (JSVal.num n) => some n
  | _ => none

/-- C9 counterexample: with *no* search, filter or sort query parameter, the
pipeline still reorders records — `sortParam` defaults to the literal
`'sort'`, which is truthy, so the sort stage always runs, sorting by the
default field name `sort`; a record list whose records carry a `sort` field
comes back in a different order. -/
theorem C9_counterexample_sort_always_runs :
    applyTransforms dataC9 "" "" "" "sort" "sort" SortOrder.asc =
      [[("id", JSVal.num 2), ("sort", JSVal.num 1)],
       [("id", JSVal.num 1), ("sort", JSVal.num 2)]] ∧
    applyTransforms dataC9 "" "" "" "sort" "sort" SortOrder.asc ≠ dataC9 := by
  refine ⟨rfl, fun h => ?_⟩
  have h1 : firstIdOf (applyTransforms dataC9 "" "" "" "sort" "sort"
      SortOrder.asc) = some 2 := rfl
  rw [h] at h1
  have h2 : firstIdOf dataC9 = some 1 := rfl
  exact absurd (h1.symm.trans h2) (by decide)

/-- C9 (amended): with no search and no filter parameter those two stages
are skipped, and the sort stage — though it always runs, keyed by the
default field name — is the identity on any record list in which no record
defines the sort field (the comparator then returns 0 everywhere and the
stable sort keeps the original order); so under the claim's conditions the
pipeline is the identity exactly on records carrying no `sort` field. -/
theorem C9_pipeline_identity_without_sort_field (data : List RecordObj)
    (sortField : String) (order : SortOrder)
    (h : ∀ r ∈ data, objGetOpt r sortField = none) :
    applyTransforms data "" "" "" "sort" sortField order = data := by
  have hstep : applyTransforms data "" "" "" "sort" sortField order =
      sortData (if data.isEmpty then [] else data) sortField order := rfl
  rw [hstep]
  by_cases hd : data = []
  · subst hd; rfl
  · rw [if_neg (by simpa using hd)]
    unfold sortData
    apply stableSort_eq_self
    intro a ha b hb
    have hcomp : sortCompare sortField order a b = 0 := by
      unfold sortCompare
      rw [h a ha]
      rfl
    rw [hcomp]
    rfl

/-- Witness for C9 (amended): two records without a `sort` field pass the
parameterless pipeline unchanged. -/
theorem C9_pipeline_identity_witness :
    applyTransforms [[("id", JSVal.num 1)], [("id", JSVal.num 2)]]
      "" "" "" "sort" "sort" SortOrder.asc =
      [[("id", JSVal.num 1)], [("id", JSVal.num 2)]] :=
  C9_pipeline_identity_without_sort_field
    [[("id", JSVal.num 1)], [("id", JSVal.num 2)]] "sort" SortOrder.asc
    (by
      intro r hr
      simp only [List.mem_cons, List.not_mem_nil, or_false] at hr
      rcases hr with rfl | rfl <;> rfl)
